import Mathlib

/-!
Verification of the enhanced-mcp-server repository against its specification.

The definitions below are a shallow embedding of the Python source:

* `src/client.py`   — `MCPClient.handle_elicitation`, `MCPClient._get_tools`,
  `MCPClient.process_query` (the agentic loop), `MCPClient.prompt`;
* `src/openai_client.py` — `MCPClient.handle_elicitation` (the strict variant
  without the try/except fallback), the `get_prompt` meta-tool dispatch inside
  `MCPClient.process_query`;
* `src/server.py`   — `get_path`, `read_file_resource`, `list_files_resource`,
  and the chunked writing loop of `write_file`.

Side effects (printing, the network, the clock) are dropped; user input is an
explicit function from field names to already-stripped strings; the file system
is an explicit association list; exceptions are `Except`.
-/

/-! ### Python-style primitive values and parsing -/

/-- A value produced by the elicitation handlers.  `vFloat` keeps the raw text
the Python `float()` call succeeded on: no claim inspects float values, so the
embedding records only that the conversion succeeded. -/
inductive PyVal where
  | vInt (n : Int)
  | vFloat (raw : String)
  | vBool (b : Bool)
  | vStr (s : String)
deriving DecidableEq, Repr

/-- Digits of an ASCII-decimal literal folded into a natural number. -/
def digitsToNat (l : List Char) : Nat :=
  l.foldl (fun a c => a * 10 + (c.toNat - 48)) 0

/-- Unsigned core of CPython `int()`: a nonempty run of ASCII digits. -/
def pyParseIntCore (l : List Char) : Option Nat :=
  if l ≠ [] ∧ l.all Char.isDigit then some (digitsToNat l) else none

/-- CPython `int()` on an already-stripped string: an optional sign followed by
ASCII digits.  (Underscore grouping and non-ASCII digits are not modelled; no
input in this development uses them.)  `none` models a raised `ValueError`. -/
def pyParseInt (s : String) : Option Int :=
  match s.toList with
  | '+' :: rest => (pyParseIntCore rest).map (fun n => (n : Int))
  | '-' :: rest => (pyParseIntCore rest).map (fun n => -(n : Int))
  | l => (pyParseIntCore l).map (fun n => (n : Int))

/-- Python `user_input.lower() in ('true', 'yes', '1')`. -/
def pyTruthyToken (s : String) : Bool :=
  ["true", "yes", "1"].contains s.toLower

/-! ### Elicitation handlers

`src/client.py` lines 95-144 and `src/openai_client.py` lines 28-56.  A schema
is the ordered `properties` mapping of the request; user input is a function
from field name to the stripped string the human typed.  Whether CPython
`float()` accepts a given string is abstracted as the parameter `floatOk`
(no claim involves a `number` field). -/

/-- One entry of `params.requestedSchema['properties']`. -/
structure FieldInfo where
  type : Option String
  description : Option String
deriving DecidableEq, Repr

/-- Result of an elicitation callback: `ElicitResult(action=..., content=...)`. -/
structure ElicitResult where
  action : String
  content : List (String × PyVal)
deriving DecidableEq, Repr

/-- Field conversion of `src/client.py` lines 130-142: the `try` block with the
`except ValueError` fallback that stores the raw string. -/
def convertField (floatOk : String → Bool) (fieldType : String) (s : String) : PyVal :=
  if fieldType = "integer" then
    match pyParseInt s with
    | some n => .vInt n
    | none => .vStr s
  else if fieldType = "number" then
    if floatOk s then .vFloat s else .vStr s
  else if fieldType = "boolean" then
    .vBool (pyTruthyToken s)
  else
    .vStr s

/-- Field conversion of `src/openai_client.py` lines 46-54: the same branches
but with no surrounding `try`, so a failed `int()`/`float()` raises.  The
error value carries the offending input. -/
def convertFieldStrict (floatOk : String → Bool) (fieldType : String) (s : String) :
    Except String PyVal :=
  if fieldType = "integer" then
    match pyParseInt s with
    | some n => .ok (.vInt n)
    | none => .error s
  else if fieldType = "number" then
    if floatOk s then .ok (.vFloat s) else .error s
  else if fieldType = "boolean" then
    .ok (.vBool (pyTruthyToken s))
  else
    .ok (.vStr s)

/-- The field-collection loop of `src/client.py`'s `handle_elicitation`:
`user_data[field_name] = <converted>` for each schema property in order. -/
def collectFields (floatOk : String → Bool) (props : List (String × FieldInfo))
    (userInput : String → String) : List (String × PyVal) :=
  props.map (fun p => (p.1, convertField floatOk (p.2.type.getD "string") (userInput p.1)))

/-- `MCPClient.handle_elicitation` of `src/client.py` (lines 95-144): collects
every field and returns `ElicitResult(action="accept", content=user_data)`. -/
def handle_elicitation (floatOk : String → Bool) (props : List (String × FieldInfo))
    (userInput : String → String) : ElicitResult :=
  { action := "accept", content := collectFields floatOk props userInput }

/-- The field-collection loop of `src/openai_client.py`'s `handle_elicitation`:
a conversion failure raises out of the loop. -/
def collectFieldsStrict (floatOk : String → Bool) (props : List (String × FieldInfo))
    (userInput : String → String) : Except String (List (String × PyVal)) :=
  match props with
  | [] => .ok []
  | p :: rest =>
    match convertFieldStrict floatOk (p.2.type.getD "string") (userInput p.1) with
    | .error e => .error e
    | .ok v =>
      match collectFieldsStrict floatOk rest userInput with
      | .error e => .error e
      | .ok l => .ok ((p.1, v) :: l)

/-- `MCPClient.handle_elicitation` of `src/openai_client.py` (lines 28-56):
no try/except, so a conversion failure propagates as an exception. -/
def handle_elicitation_openai (floatOk : String → Bool) (props : List (String × FieldInfo))
    (userInput : String → String) : Except String ElicitResult :=
  match collectFieldsStrict floatOk props userInput with
  | .error e => .error e
  | .ok data => .ok { action := "accept", content := data }

/-! ### Tool catalog translation

`src/client.py` lines 146-166 (`MCPClient._get_tools`) and the identical
comprehension in `src/openai_client.py` lines 104-112.  The input schema is
passed through untouched, so it is a type parameter. -/

/-- A provider-side tool descriptor.  `description` is `Optional[str]`. -/
structure ToolDescriptor (σ : Type) where
  name : String
  description : Option String
  inputSchema : σ
deriving DecidableEq, Repr

/-- The dictionary shape handed to the LLM API. -/
structure ApiTool (σ : Type) where
  name : String
  description : String
  input_schema : σ
deriving DecidableEq, Repr

/-- Python `x or y` on an `Optional[str]`: `None` and `""` are falsy. -/
def pyOrStr (x : Option String) (y : String) : String :=
  match x with
  | none => y
  | some s => if s = "" then y else s

/-- Translation of one descriptor:
`{"name": tool.name, "description": tool.description or "MCP Tool",
"input_schema": tool.inputSchema}`. -/
def translateTool {σ : Type} (t : ToolDescriptor σ) : ApiTool σ :=
  { name := t.name, description := pyOrStr t.description "MCP Tool",
    input_schema := t.inputSchema }

/-- `MCPClient._get_tools` of `src/client.py`: the list comprehension over
`tools_response.tools`. -/
def get_tools {σ : Type} (tools : List (ToolDescriptor σ)) : List (ApiTool σ) :=
  tools.map translateTool

/-! ### The agentic loop

`MCPClient.process_query` of `src/client.py` lines 195-291 and the identical
round structure of `src/openai_client.py` lines 172-266.  A tool execution is
an abstract `ToolExec`: in `src/client.py` it is `session.call_tool` followed
by the result-content formatting; in `src/openai_client.py` it is the
three-way dispatch on the tool name (`read_resource` / `get_prompt` /
`call_tool`), every branch of which likewise either produces a content string
or raises.  `Except.error` models a raised exception. -/

/-- Tool arguments: the JSON object of a `tool_use` block, as key/value
pairs.  The loop passes them through to the executor untouched. -/
abbrev ToolArgs := List (String × String)

/-- Executing one tool: given name and arguments, either the list of result
content parts (each part's text) or a raised exception's message. -/
abbrev ToolExec := String → ToolArgs → Except String (List String)

/-- A typed content block of an assistant turn. -/
inductive Content where
  | text (s : String)
  | tool_use (id : String) (name : String) (input : ToolArgs)
deriving DecidableEq, Repr

/-- A `tool_result` block as built by `process_query`. -/
structure ToolResult where
  tool_use_id : String
  content : String
  is_error : Bool
deriving DecidableEq, Repr

/-- Content of one conversation message. -/
inductive MsgContent where
  | text (s : String)
  | blocks (l : List Content)
  | results (l : List ToolResult)
deriving DecidableEq, Repr

/-- One conversation message (`{"role": ..., "content": ...}`). -/
structure Message where
  role : String
  content : MsgContent
deriving DecidableEq, Repr

/-- One reply of the model API: stop reason plus content blocks. -/
structure ModelResponse where
  stop_reason : String
  content : List Content
deriving DecidableEq, Repr

/-- Body of the try/except in `src/client.py` lines 242-269: a successful call
is formatted by joining result-content parts with a newline; a raised
exception is wrapped as `{"content": "Error: " + str(e), "is_error": True}`. -/
def execResult (exec : ToolExec) (id name : String) (args : ToolArgs) : ToolResult :=
  match exec name args with
  | .ok parts => { tool_use_id := id, content := String.intercalate "\n" parts, is_error := false }
  | .error e => { tool_use_id := id, content := "Error: " ++ e, is_error := true }

/-- One iteration of `for content in response.content`: a `tool_use` block
appends exactly one result to `tool_results`, any other block is skipped. -/
def roundStep (exec : ToolExec) (acc : List ToolResult) (b : Content) : List ToolResult :=
  match b with
  | .text _ => acc
  | .tool_use id name args => acc ++ [execResult exec id name args]

/-- The whole `tool_results` accumulation of one round (`src/client.py`
lines 236-269): start from `[]`, fold the assistant's content blocks. -/
def processRound (exec : ToolExec) (blocks : List Content) : List ToolResult :=
  blocks.foldl (roundStep exec) []

/-- The ids of the `tool_use` blocks of a turn, in order of appearance. -/
def toolUseIds : List Content → List String
  | [] => []
  | .text _ :: rest => toolUseIds rest
  | .tool_use id _ _ :: rest => id :: toolUseIds rest

/-- One full round of the loop body: append the assistant turn verbatim, then
append one `user` turn holding all of this round's `tool_result` blocks
(`src/client.py` lines 230-275). -/
def loopRound (exec : ToolExec) (messages : List Message) (resp : ModelResponse) :
    List Message :=
  messages ++ [{ role := "assistant", content := .blocks resp.content },
               { role := "user", content := .results (processRound exec resp.content) }]

/-- Join of the final turn's text blocks (`src/client.py` lines 286-291). -/
def finalText (resp : ModelResponse) : String :=
  String.intercalate "\n" (resp.content.filterMap (fun b =>
    match b with
    | .text s => some s
    | _ => none))

/-- The `while response.stop_reason == "tool_use"` loop of `process_query`.
The Python loop has no bound; `fuel` only truncates the embedding, and `none`
means the loop was still running (still requesting tool use) when the fuel ran
out — the source never produces any limit-style error. -/
def agenticLoop (model : List Message → ModelResponse) (exec : ToolExec) :
    Nat → List Message → ModelResponse → Option String
  | 0, _, resp => if resp.stop_reason = "tool_use" then none else some (finalText resp)
  | fuel + 1, messages, resp =>
    if resp.stop_reason = "tool_use" then
      agenticLoop model exec fuel (loopRound exec messages resp)
        (model (loopRound exec messages resp))
    else
      some (finalText resp)

/-- `MCPClient.process_query`: seed the conversation with the user query, call
the model once, then run the loop.  `fuel` as in `agenticLoop`. -/
def process_query (model : List Message → ModelResponse) (exec : ToolExec)
    (fuel : Nat) (query : String) : Option String :=
  agenticLoop model exec fuel [{ role := "user", content := .text query }]
    (model [{ role := "user", content := .text query }])

/-- A model that requests tool use on every call — the misbehaving model of
the round-limit discussion. -/
def constToolUseModel : List Message → ModelResponse :=
  fun _ => { stop_reason := "tool_use", content := [Content.tool_use "id1" "t" []] }

/-- An executor whose every call succeeds. -/
def constOkExec : ToolExec := fun _ _ => .ok ["ok"]

/-- An executor whose every call raises. -/
def failExec : ToolExec := fun _ _ => .error "boom"

/-! ### Prompt invocation

`MCPClient.prompt` of `src/client.py` lines 293-343 (the interactive argument
collection with its required-argument check) and the `get_prompt` meta-tool
branch of `src/openai_client.py` lines 206-226 (which forwards directly to the
provider). -/

/-- One entry of a prompt descriptor's argument list. -/
structure PromptArg where
  name : String
  required : Bool
deriving DecidableEq, Repr

/-- A provider-side prompt descriptor. -/
structure PromptDescriptor where
  name : String
  arguments : List PromptArg
deriving DecidableEq, Repr

/-- Outcome of `MCPClient.prompt` up to the point where a provider request is
(or is not) issued.  `requested` means `session.get_prompt` was called with
the collected arguments; the other two constructors return before any request
is sent. -/
inductive PromptOutcome where
  | notFound
  | missingRequired (argName : String)
  | requested (name : String) (args : List (String × String))
deriving DecidableEq, Repr

/-- The argument-collection loop of `src/client.py` lines 314-327: for each
declared argument, read stripped input; empty input for a required argument
aborts; nonempty input is recorded. -/
def collectArgs (userInput : String → String) :
    List PromptArg → List (String × String) → Except String (List (String × String))
  | [], acc => .ok acc
  | a :: rest, acc =>
    let ui := userInput a.name
    if ui = "" ∧ a.required then .error a.name
    else collectArgs userInput rest (if ui = "" then acc else acc ++ [(a.name, ui)])

/-- `MCPClient.prompt` of `src/client.py`: look the prompt up by name, collect
arguments interactively, and only then call `session.get_prompt`. -/
def clientPrompt (prompts : List PromptDescriptor) (promptName : String)
    (userInput : String → String) : PromptOutcome :=
  match prompts.find? (fun p => p.name == promptName) with
  | none => .notFound
  | some p =>
    match collectArgs userInput p.arguments [] with
    | .error a => .missingRequired a
    | .ok args => .requested promptName args

/-- Arguments of the `get_prompt` meta-tool in `src/openai_client.py`:
`tool_args["prompt_name"]` and `tool_args.get("arguments", {})`. -/
structure GetPromptArgs where
  prompt_name : String
  arguments : Option (List (String × String))
deriving DecidableEq, Repr

/-- A request sent to the provider process. -/
inductive ProviderRequest where
  | getPrompt (name : String) (args : List (String × String))
deriving DecidableEq, Repr

/-- The `get_prompt` branch of `src/openai_client.py` lines 206-213: it calls
`session.get_prompt(prompt_name, arguments=...)` unconditionally — there is no
client-side check of the descriptor's required arguments, and the return type
records the provider request that is sent. -/
def openaiGetPromptDispatch (t : GetPromptArgs) : ProviderRequest :=
  .getPrompt t.prompt_name (t.arguments.getD [])

/-- The `code_review` prompt of `src/server.py` lines 200-249: its single
argument `file_path` has no default, so FastMCP declares it required. -/
def codeReviewDescriptor : PromptDescriptor :=
  { name := "code_review", arguments := [{ name := "file_path", required := true }] }

/-! ### Paths and the server's file boundary

`get_path` of `src/server.py` lines 30-49 plus the resource handlers of lines
133-194.  An absolute path is its list of components below the root; symlinks
are outside the model, so `Path.resolve()` is the usual lexical normalisation
against the current working directory (which in `src/server.py` is `BASE_DIR`
itself, since `BASE_DIR = Path.cwd()`). -/

/-- A path string, parsed: whether it was absolute, and its raw components
(which may contain "." or ".."). -/
structure RawPath where
  absolute : Bool
  parts : List String
deriving DecidableEq, Repr

/-- One step of normalisation: "." and empty components vanish, ".." pops
(staying at the root when already there), anything else is pushed. -/
def normStep (acc : List String) (comp : String) : List String :=
  if comp = "." ∨ comp = "" then acc
  else if comp = ".." then acc.dropLast
  else acc ++ [comp]

/-- `Path(p).resolve()`: an absolute path normalises from the root, a relative
path normalises starting from the current working directory. -/
def resolvePath (cwd : List String) (p : RawPath) : List String :=
  p.parts.foldl normStep (if p.absolute then [] else cwd)

/-- Boolean component-wise test that `base` is an initial segment of `p` —
the check `PurePath.relative_to` performs on the parts of both paths. -/
def hasBase : List String → List String → Bool
  | [], _ => true
  | _ :: _, [] => false
  | b :: bs, x :: xs => b == x && hasBase bs xs

/-- `PurePath.relative_to`: the remainder past `base`, or a raised
`ValueError` when `base` is not an initial segment. -/
def relative_to (p base : List String) : Except String (List String) :=
  if hasBase base p then .ok (p.drop base.length) else .error "is not in the subpath"

/-- `get_path` of `src/server.py` lines 30-49:
`Path(relative_path).resolve().relative_to(BASE_DIR)`, re-raising the
`ValueError` with the message "Path is outside BASE_DIR". -/
def get_path (base : List String) (relative_path : RawPath) : Except String (List String) :=
  match relative_to (resolvePath base relative_path) base with
  | .ok rel => .ok rel
  | .error _ => .error "Path is outside BASE_DIR"

/-- The specification-side predicate: the resolved path lies within the base
directory, i.e. it extends the base by some (possibly empty) suffix. -/
def isWithin (p base : List String) : Prop :=
  ∃ t : List String, p = base ++ t

/-! ### The resource handlers

`read_file_resource` and `list_files_resource` of `src/server.py` lines
133-194.  The file system is an association list from absolute paths to
entries.  The success payload of the directory listing keeps name and kind;
sizes and timestamps are environment state outside the embedding and no claim
mentions them. -/

/-- An entry of the modelled file system. -/
inductive FSEntry where
  | file (content : String)
  | dir
deriving DecidableEq, Repr

/-- The modelled file system: absolute path components to entry. -/
abbrev FS := List (List String × FSEntry)

/-- Look a path up in the modelled file system. -/
def fsLookup (fs : FS) (p : List String) : Option FSEntry :=
  (fs.find? (fun e => e.1 == p)).map Prod.snd

/-- One item of the directory listing payload. -/
structure DirItem where
  name : String
  itemType : String
deriving DecidableEq, Repr

/-- The dictionary a resource handler returns: exactly one of the payload
shapes, or an `{"error": ...}` dictionary — never a raised exception. -/
inductive ResourceData where
  | fileContent (s : String)
  | items (l : List DirItem)
  | error (msg : String)
deriving DecidableEq, Repr

/-- Whether a resource result is the `{"error": ...}` shape. -/
def isErrorData : ResourceData → Bool
  | .error _ => true
  | _ => false

/-- Render a raw path back to its string (for error messages). -/
def rawPathStr (p : RawPath) : String :=
  (if p.absolute then "/" else "") ++ String.intercalate "/" p.parts

/-- The direct children of `p` present in the modelled file system, as the
`iterdir` loop of `list_files_resource` records them. -/
def dirChildren (fs : FS) (p : List String) : List DirItem :=
  fs.filterMap (fun e =>
    if hasBase p e.1 ∧ e.1.length = p.length + 1 then
      some { name := (e.1.drop p.length).headD "",
             itemType := match e.2 with
               | .dir => "directory"
               | .file _ => "file" }
    else none)

/-- `read_file_resource` of `src/server.py` lines 133-157: `get_path`, the
exists/is-file check, then the file content — every failure, including the
`ValueError` from `get_path`, is returned as an `{"error": ...}` dictionary. -/
def read_file_resource (fs : FS) (base : List String) (file_name : RawPath) : ResourceData :=
  match get_path base file_name with
  | .error e => .error ("Error reading file: " ++ e)
  | .ok rel =>
    match fsLookup fs (base ++ rel) with
    | some (.file c) => .fileContent c
    | _ => .error ("Error: " ++ rawPathStr file_name ++ " is not a valid file")

/-- `list_files_resource` of `src/server.py` lines 161-194: `get_path(".")`,
the exists/is-dir check, then the `iterdir` listing — every failure is
returned as an `{"error": ...}` dictionary. -/
def list_files_resource (fs : FS) (base : List String) : ResourceData :=
  match get_path base { absolute := false, parts := ["."] } with
  | .error e => .error ("Error listing files: " ++ e)
  | .ok rel =>
    match fsLookup fs (base ++ rel) with
    | some .dir => .items (dirChildren fs (base ++ rel))
    | _ => .error (String.intercalate "/" rel ++ " is not a valid directory")

/-! ### Chunked writing

`write_file` of `src/server.py` lines 56-96: `chunk_size = max(total // 10, 1)`,
`for i in range(0, total, chunk_size): f.write(content[i:i+chunk_size])`, a
progress report of `min(i+chunk_size, total)` out of `total` per chunk, and a
final `report_progress(progress=total, total=total)` after the loop. -/

/-- Python `range(start, stop, step)` for a positive step. -/
def pyRange (start stop step : Nat) : List Nat :=
  if _h : 0 < step ∧ start < stop then start :: pyRange (start + step) stop step else []
termination_by stop - start
decreasing_by
  simp_wf
  omega

/-- The chunks `content[i:i+chunk_size]` written by `write_file`, in order. -/
def write_file_chunks (content : List Char) : List (List Char) :=
  let total := content.length
  let chunk_size := max (total / 10) 1
  (pyRange 0 total chunk_size).map (fun i => (content.drop i).take chunk_size)

/-- The `(progress, total)` pairs reported by `write_file`, the in-loop
reports followed by the final "Write complete" report. -/
def write_file_progress (content : List Char) : List (Nat × Nat) :=
  let total := content.length
  let chunk_size := max (total / 10) 1
  (pyRange 0 total chunk_size).map (fun i => (min (i + chunk_size) total, total))
    ++ [(total, total)]

/-! ### Helper lemmas -/

/-- Both branches of the try/except tag the result with the originating
`tool_use` block's id. -/
theorem execResult_id (exec : ToolExec) (id name : String) (args : ToolArgs) :
    (execResult exec id name args).tool_use_id = id := by
  unfold execResult
  cases exec name args <;> rfl

/-- The fold of `roundStep` extends the accumulated ids by the turn's
`tool_use` ids, in order. -/
theorem roundStep_foldl_ids (exec : ToolExec) :
    ∀ (blocks : List Content) (acc : List ToolResult),
      (blocks.foldl (roundStep exec) acc).map ToolResult.tool_use_id =
        acc.map ToolResult.tool_use_id ++ toolUseIds blocks := by
  intro blocks
  induction blocks with
  | nil =>
    intro acc
    simp [toolUseIds]
  | cons b rest ih =>
    intro acc
    cases b with
    | text s =>
      simp only [List.foldl_cons, roundStep, toolUseIds]
      exact ih acc
    | tool_use id name args =>
      simp only [List.foldl_cons, roundStep, toolUseIds]
      rw [ih (acc ++ [execResult exec id name args])]
      simp [execResult_id]

/-- When every model reply requests tool use, the loop never reaches a final
answer, whatever the fuel. -/
theorem loop_none_of_always_toolUse (model : List Message → ModelResponse) (exec : ToolExec)
    (hm : ∀ msgs, (model msgs).stop_reason = "tool_use") :
    ∀ (fuel : Nat) (msgs : List Message) (resp : ModelResponse),
      resp.stop_reason = "tool_use" → agenticLoop model exec fuel msgs resp = none := by
  intro fuel
  induction fuel with
  | zero =>
    intro msgs resp h
    simp [agenticLoop, h]
  | succ n ih =>
    intro msgs resp h
    simp only [agenticLoop, h, if_pos]
    exact ih _ _ (hm _)

/-- Component-wise base test agrees with extension by a suffix. -/
theorem hasBase_iff (base : List String) : ∀ p : List String,
    hasBase base p = true ↔ ∃ t, p = base ++ t := by
  induction base with
  | nil =>
    intro p
    simp [hasBase]
  | cons b bs ih =>
    intro p
    cases p with
    | nil => simp [hasBase]
    | cons x xs =>
      rw [show hasBase (b :: bs) (x :: xs) = (b == x && hasBase bs xs) from rfl]
      simp only [Bool.and_eq_true, beq_iff_eq, ih xs]
      constructor
      · rintro ⟨rfl, t, rfl⟩
        exact ⟨t, rfl⟩
      · rintro ⟨t, ht⟩
        simp only [List.cons_append, List.cons.injEq] at ht
        exact ⟨ht.1.symm, t, ht.2⟩

/-- Concatenating the Python-range slices of width `c` recovers the dropped
tail of the list. -/
theorem pyRange_chunks_flatten {α : Type} (c : Nat) (hc : 0 < c) (l : List α) :
    ∀ (k i : Nat), l.length - i ≤ k →
      ((pyRange i l.length c).map (fun j => (l.drop j).take c)).flatten = l.drop i := by
  intro k
  induction k with
  | zero =>
    intro i hi
    have hle : l.length ≤ i := by omega
    rw [pyRange, dif_neg (by omega)]
    simp [List.drop_eq_nil_of_le hle]
  | succ k ih =>
    intro i hi
    by_cases h : i < l.length
    · rw [pyRange, dif_pos ⟨hc, h⟩]
      simp only [List.map_cons, List.flatten_cons]
      rw [ih (i + c) (by omega)]
      have hd : l.drop (i + c) = (l.drop i).drop c := by
        rw [List.drop_drop, Nat.add_comm]
      rw [hd]
      exact List.take_append_drop c (l.drop i)
    · rw [pyRange, dif_neg (by omega)]
      simp [List.drop_eq_nil_of_le (by omega : l.length ≤ i)]

/-! ### Claim theorems -/

/-- Claim C1: for every assistant turn containing `tool_use` blocks, the
agentic loop appends exactly one `tool_result` block per `tool_use` block,
each tagged with the originating block's id, all collected into a single
following `user` turn, in the order the `tool_use` blocks appeared —
regardless of whether the individual invocations succeeded or failed (the
executor `exec` is arbitrary). -/
theorem loop_one_result_per_tool_use (exec : ToolExec) (messages : List Message)
    (resp : ModelResponse) :
    loopRound exec messages resp =
      messages ++ [{ role := "assistant", content := .blocks resp.content },
                   { role := "user", content := .results (processRound exec resp.content) }] ∧
    (processRound exec resp.content).map ToolResult.tool_use_id = toolUseIds resp.content ∧
    (processRound exec resp.content).length = (toolUseIds resp.content).length := by
  have hids : (processRound exec resp.content).map ToolResult.tool_use_id =
      toolUseIds resp.content := by
    simpa using roundStep_foldl_ids exec resp.content []
  refine ⟨rfl, hids, ?_⟩
  calc (processRound exec resp.content).length
      = ((processRound exec resp.content).map ToolResult.tool_use_id).length := by
        rw [List.length_map]
    _ = (toolUseIds resp.content).length := by rw [hids]

/-- Claim C2: a tool invocation that raises inside the loop does not
propagate: it is wrapped as a `tool_result` with `is_error` true and content
"Error: " followed by the exception message, and the loop proceeds to the
next model call exactly as in the non-raising case. -/
theorem tool_error_wrapped_capture (exec : ToolExec) (model : List Message → ModelResponse)
    (fuel : Nat) (msgs : List Message) (resp : ModelResponse) (blocks : List Content)
    (id name : String) (args : ToolArgs) (e : String)
    (h : exec name args = Except.error e) (hstop : resp.stop_reason = "tool_use") :
    processRound exec (blocks ++ [Content.tool_use id name args]) =
      processRound exec blocks ++
        [{ tool_use_id := id, content := "Error: " ++ e, is_error := true }] ∧
    agenticLoop model exec (fuel + 1) msgs resp =
      agenticLoop model exec fuel (loopRound exec msgs resp)
        (model (loopRound exec msgs resp)) := by
  constructor
  · unfold processRound
    rw [List.foldl_append]
    simp [roundStep, execResult, h]
  · simp [agenticLoop, hstop]

/-- Witness for C2 at a concrete failing executor. -/
theorem tool_error_wrapped_capture_witness :
    processRound failExec ([] ++ [Content.tool_use "i" "t" []]) =
      processRound failExec [] ++
        [{ tool_use_id := "i", content := "Error: " ++ "boom", is_error := true }] ∧
    agenticLoop constToolUseModel failExec (0 + 1) []
        { stop_reason := "tool_use", content := [] } =
      agenticLoop constToolUseModel failExec 0
        (loopRound failExec [] { stop_reason := "tool_use", content := [] })
        (constToolUseModel (loopRound failExec [] { stop_reason := "tool_use", content := [] })) :=
  tool_error_wrapped_capture failExec constToolUseModel 0 []
    { stop_reason := "tool_use", content := [] } [] "i" "t" [] "boom" rfl rfl

/-- Claim C3 (corrected): the elicitation handler never returns Declined —
it always returns the accept action with every schema field collected; empty
input for a string field is accepted as the empty string, and input
"report.md" is accepted as the string "report.md". -/
theorem elicitation_always_accepts (floatOk : String → Bool)
    (props : List (String × FieldInfo)) (userInput : String → String) :
    (handle_elicitation floatOk props userInput).action = "accept" ∧
    handle_elicitation floatOk [("name", { type := some "string", description := none })]
        (fun _ => "report.md") =
      { action := "accept", content := [("name", PyVal.vStr "report.md")] } ∧
    handle_elicitation floatOk [("name", { type := some "string", description := none })]
        (fun _ => "") =
      { action := "accept", content := [("name", PyVal.vStr "")] } := by
  refine ⟨rfl, ?_, ?_⟩ <;> rfl

/-- Counterexample to C3 as stated: with schema `{"name": {"type": "string"}}`
and empty input, `handle_elicitation` returns the accept action (carrying the
empty string as data), not a decline. -/
theorem elicitation_empty_input_accepted_cex :
    handle_elicitation (fun _ => false)
        [("name", { type := some "string", description := none })] (fun _ => "") =
      { action := "accept", content := [("name", PyVal.vStr "")] } ∧
    "accept" ≠ "decline" :=
  ⟨rfl, by decide⟩

/-- Claim C4 (corrected): the `src/client.py` handler converts "42" for an
integer field to the integer 42 and falls back to the raw string on a failed
conversion, but the `src/openai_client.py` handler has no such fallback — the
failed conversion raises and fails the whole elicitation. -/
theorem integer_field_leniency (floatOk : String → Bool) (s : String)
    (h : pyParseInt s = none) :
    handle_elicitation floatOk [("n", { type := some "integer", description := none })]
        (fun _ => "42") = { action := "accept", content := [("n", PyVal.vInt 42)] } ∧
    handle_elicitation floatOk [("n", { type := some "integer", description := none })]
        (fun _ => s) = { action := "accept", content := [("n", PyVal.vStr s)] } ∧
    handle_elicitation_openai floatOk [("n", { type := some "integer", description := none })]
        (fun _ => s) = Except.error s := by
  refine ⟨rfl, ?_, ?_⟩
  · simp [handle_elicitation, collectFields, convertField, h]
  · simp [handle_elicitation_openai, collectFieldsStrict, convertFieldStrict, h]

/-- Witness for C4 at the concrete non-numeric input "abc". -/
theorem integer_field_leniency_witness :
    handle_elicitation (fun _ => false)
        [("n", { type := some "integer", description := none })] (fun _ => "42") =
      { action := "accept", content := [("n", PyVal.vInt 42)] } ∧
    handle_elicitation (fun _ => false)
        [("n", { type := some "integer", description := none })] (fun _ => "abc") =
      { action := "accept", content := [("n", PyVal.vStr "abc")] } ∧
    handle_elicitation_openai (fun _ => false)
        [("n", { type := some "integer", description := none })] (fun _ => "abc") =
      Except.error "abc" :=
  integer_field_leniency (fun _ => false) "abc" rfl

/-- Counterexample to C4 as stated: the `src/openai_client.py` handler, on an
integer field with input "abc", raises (modelled by the error value) instead
of storing the raw string. -/
theorem openai_integer_conversion_raises_cex :
    handle_elicitation_openai (fun _ => false)
        [("n", { type := some "integer", description := none })] (fun _ => "abc") =
      Except.error "abc" := rfl

/-- Claim C5 (corrected): the loop has no maximum round count — as long as
every model reply requests tool use it keeps iterating, never producing a
final answer and never surfacing any limit-style error (the embedding's
result offers no such outcome; `none` means the `while` condition still held
when the observation window `fuel` ran out). -/
theorem agentic_loop_has_no_round_limit (model : List Message → ModelResponse)
    (exec : ToolExec) (hm : ∀ msgs, (model msgs).stop_reason = "tool_use")
    (fuel : Nat) (msgs : List Message) (resp : ModelResponse)
    (hstop : resp.stop_reason = "tool_use") :
    agenticLoop model exec fuel msgs resp = none :=
  loop_none_of_always_toolUse model exec hm fuel msgs resp hstop

/-- Witness for C5 at the constantly tool-requesting model. -/
theorem agentic_loop_has_no_round_limit_witness :
    agenticLoop constToolUseModel constOkExec 3 []
      { stop_reason := "tool_use", content := [] } = none :=
  agentic_loop_has_no_round_limit constToolUseModel constOkExec (fun _ => rfl) 3 []
    { stop_reason := "tool_use", content := [] } rfl

/-- Counterexample to C5 as stated: with a model that keeps requesting tool
use, `process_query` has still not terminated after 100 rounds (and its
result type has no LoopLimitExceeded outcome at all — the source contains no
round counter). -/
theorem agentic_loop_round_limit_cex :
    process_query constToolUseModel constOkExec 100 "list the files" = none := by
  unfold process_query
  exact loop_none_of_always_toolUse constToolUseModel constOkExec (fun _ => rfl) 100 _ _ rfl

/-- Claim C6: `get_path` resolves its argument against the fixed base
directory (the working directory, which is `BASE_DIR`) and raises the
`ValueError` "Path is outside BASE_DIR" exactly when the resolved path does
not lie within the base directory. -/
theorem get_path_valueError_iff (base : List String) (p : RawPath) :
    get_path base p = Except.error "Path is outside BASE_DIR" ↔
      ¬ isWithin (resolvePath base p) base := by
  by_cases h : hasBase base (resolvePath base p) = true
  · have hw : isWithin (resolvePath base p) base := by
      obtain ⟨t, ht⟩ := (hasBase_iff base (resolvePath base p)).mp h
      exact ⟨t, ht⟩
    simp [get_path, relative_to, h, hw]
  · have hw : ¬ isWithin (resolvePath base p) base := by
      rintro ⟨t, ht⟩
      exact h ((hasBase_iff base (resolvePath base p)).mpr ⟨t, ht⟩)
    simp [get_path, relative_to, h, hw]

/-- Claim C7 (corrected): `src/client.py` validates a missing required prompt
argument client-side — empty input for a required argument aborts the
invocation before `session.get_prompt` is called (by printing an error and
returning, not by raising a ValidationError) — while the `get_prompt`
meta-tool of `src/openai_client.py` performs no client-side validation and
always sends the request to the provider. -/
theorem prompt_required_argument_paths (userInput : String → String) (t : GetPromptArgs)
    (h : userInput "file_path" = "") :
    clientPrompt [codeReviewDescriptor] "code_review" userInput =
      PromptOutcome.missingRequired "file_path" ∧
    openaiGetPromptDispatch t =
      ProviderRequest.getPrompt t.prompt_name (t.arguments.getD []) := by
  constructor
  · simp [clientPrompt, codeReviewDescriptor, collectArgs, h]
  · rfl

/-- Witness for C7 at concrete empty input and empty meta-tool arguments. -/
theorem prompt_required_argument_paths_witness :
    clientPrompt [codeReviewDescriptor] "code_review" (fun _ => "") =
      PromptOutcome.missingRequired "file_path" ∧
    openaiGetPromptDispatch { prompt_name := "code_review", arguments := none } =
      ProviderRequest.getPrompt "code_review" (Option.getD none []) :=
  prompt_required_argument_paths (fun _ => "")
    { prompt_name := "code_review", arguments := none } rfl

/-- Counterexample to C7 as stated: invoking `get_prompt("code_review", {})`
through the `src/openai_client.py` meta-tool, although `code_review` declares
`file_path` as required, sends a provider request (the dispatch result is a
`getPrompt` request — its type has no client-side validation failure at all),
so the invocation does not fail before network activity. -/
theorem openai_get_prompt_sends_without_validation_cex :
    codeReviewDescriptor.arguments = [{ name := "file_path", required := true }] ∧
    openaiGetPromptDispatch { prompt_name := "code_review", arguments := none } =
      ProviderRequest.getPrompt "code_review" [] :=
  ⟨rfl, rfl⟩

/-- Claim C8 (corrected): the catalog translation preserves the descriptor's
name and input schema unchanged and preserves the description when it is
present and non-empty; when the description is absent or the empty string,
Python's `or` substitutes the fixed default "MCP Tool". -/
theorem tool_translation_preserves (σ : Type) (tools : List (ToolDescriptor σ))
    (t : ToolDescriptor σ) (s : String) (hdesc : t.description = some s) (hne : s ≠ "") :
    get_tools tools = tools.map translateTool ∧
    (translateTool t).name = t.name ∧
    (translateTool t).input_schema = t.inputSchema ∧
    (translateTool t).description = s ∧
    pyOrStr none "MCP Tool" = "MCP Tool" ∧
    pyOrStr (some "") "MCP Tool" = "MCP Tool" := by
  refine ⟨rfl, rfl, rfl, ?_, rfl, rfl⟩
  simp [translateTool, pyOrStr, hdesc, hne]

/-- Witness for C8 at a concrete descriptor with a non-empty description. -/
theorem tool_translation_preserves_witness :
    get_tools ([] : List (ToolDescriptor Nat)) = List.map translateTool [] ∧
    (translateTool { name := "a", description := some "d", inputSchema := (0 : Nat) }).name =
      "a" ∧
    (translateTool ({ name := "a", description := some "d", inputSchema := 0 } :
        ToolDescriptor Nat)).input_schema = 0 ∧
    (translateTool ({ name := "a", description := some "d", inputSchema := 0 } :
        ToolDescriptor Nat)).description = "d" ∧
    pyOrStr none "MCP Tool" = "MCP Tool" ∧
    pyOrStr (some "") "MCP Tool" = "MCP Tool" :=
  tool_translation_preserves Nat [] { name := "a", description := some "d", inputSchema := 0 }
    "d" rfl (by decide)

/-- Counterexample to C8 as stated: a well-formed descriptor whose
description is present but empty is translated to the default "MCP Tool",
not to its own (empty) description. -/
theorem tool_translation_empty_description_cex :
    get_tools [({ name := "t1", description := some "", inputSchema := 0 } :
        ToolDescriptor Nat)] =
      [{ name := "t1", description := "MCP Tool", input_schema := 0 }] ∧
    ("" : String) ≠ "MCP Tool" :=
  ⟨rfl, by decide⟩

/-- Claim C9: when the URI path does not resolve to a valid target — the
looked-up entry is not a file for the file resource, or the base is not a
directory for the directory resource — the handlers return the
`{"error": string}` data shape (their return type is plain data: no
exception escapes). -/
theorem resource_errors_surfaced_as_data (fs : FS) (base : List String) (fn : RawPath)
    (hfile : ∀ rel c, get_path base fn = Except.ok rel →
      fsLookup fs (base ++ rel) ≠ some (FSEntry.file c))
    (hdir : fsLookup fs base ≠ some FSEntry.dir) :
    isErrorData (read_file_resource fs base fn) = true ∧
    isErrorData (list_files_resource fs base) = true := by
  constructor
  · unfold read_file_resource
    cases hg : get_path base fn with
    | error e => simp [isErrorData]
    | ok rel =>
      cases hl : fsLookup fs (base ++ rel) with
      | none => simp [hl, isErrorData]
      | some entry =>
        cases entry with
        | dir => simp [hl, isErrorData]
        | file c => exact absurd hl (hfile rel c hg)
  · unfold list_files_resource
    have h1 : resolvePath base { absolute := false, parts := ["."] } = base := by
      simp [resolvePath, normStep]
    have h2 : hasBase base base = true :=
      (hasBase_iff base base).mpr ⟨[], by simp⟩
    have hdot : get_path base { absolute := false, parts := ["."] } = Except.ok [] := by
      simp [get_path, relative_to, h1, h2, List.drop_length]
    rw [hdot]
    cases hl : fsLookup fs (base ++ []) with
    | none => simp [hl, isErrorData]
    | some entry =>
      cases entry with
      | file c => simp [hl, isErrorData]
      | dir =>
        rw [List.append_nil] at hl
        exact absurd hl hdir

/-- Witness for C9 on the empty file system. -/
theorem resource_errors_surfaced_as_data_witness :
    isErrorData (read_file_resource [] ["root"] { absolute := false, parts := ["a.txt"] }) =
      true ∧
    isErrorData (list_files_resource [] ["root"]) = true :=
  resource_errors_surfaced_as_data [] ["root"] { absolute := false, parts := ["a.txt"] }
    (by intro rel c _; simp [fsLookup]) (by simp [fsLookup])

/-- Claim C10: for every content (the empty content included), the chunks
`content[i:i+chunk_size]` written by `write_file` — with
`chunk_size = max(len(content) // 10, 1)` and `i` ranging over
`range(0, len(content), chunk_size)` — concatenate back to the content
exactly, and the final progress report carries progress equal to total equal
to the content's length. -/
theorem write_file_chunks_concat (content : List Char) :
    (write_file_chunks content).flatten = content ∧
    (write_file_progress content).getLast? = some (content.length, content.length) := by
  constructor
  · have hc : 0 < max (content.length / 10) 1 :=
      Nat.lt_of_lt_of_le Nat.zero_lt_one (Nat.le_max_right _ _)
    have h := pyRange_chunks_flatten (max (content.length / 10) 1) hc content
      content.length 0 (by omega)
    simpa [write_file_chunks] using h
  · simp [write_file_progress, List.getLast?_concat]
